import Mathlib

/-!
Shallow embedding of the rotary-knob widget core from `knob.py`
(`kivy-garden/garden.knob`).

The embedded code is the angle/value conversion and gesture logic:

* `_value`   (line 253-254)   : the `value -> _angle` binding;
* `on_touch_down` (267-269), `on_touch_move` (271-273);
* `update_angle`  (275-299)   : angle-step recomputation, quadrant
  resolution, `atan`-based raw angle with a bare `except` for the
  division by zero at `ry == 0`, the drag guard, quantization and the
  value commit;
* the kivy property declarations (`step` is a
  `BoundedNumericProperty(1, min=0)`, line 136).

Configuration and state are modelled over `ℚ` (Python floats are
rationals); the raw resolved angle, which goes through `math.atan`, is
modelled over `ℝ` with `Real.arctan`.  Python's `round` (half to even)
and `int` (truncation toward zero) are modelled explicitly, and the
fallible float division is modelled with `Except`, mirroring the
`try`/`except` of the source.
-/

/-- Python's built-in `round` applied to a real number: nearest integer,
ties to even. -/
noncomputable def pyRound (x : ℝ) : ℤ :=
  if x - ⌊x⌋ < 1 / 2 then ⌊x⌋
  else if 1 / 2 < x - ⌊x⌋ then ⌊x⌋ + 1
  else if Even ⌊x⌋ then ⌊x⌋ else ⌊x⌋ + 1

/-- Python's built-in `int()` applied to a real number: truncation toward
zero. -/
noncomputable def int_trunc (x : ℝ) : ℤ := if 0 ≤ x then ⌊x⌋ else ⌈x⌉

/-- The core state of the `Knob` widget: the numeric kivy properties used
by the gesture/conversion logic (rendering-only properties are omitted). -/
structure Knob where
  min : ℚ
  max : ℚ
  step : ℚ
  value : ℚ
  _angle : ℚ
  _angle_step : ℚ
deriving DecidableEq, Repr

/-- Line 254: the `_value` callback formula
`(value - self.min) * 360. / (-self.min + self.max)`. -/
def value_to_angle (mn mx v : ℚ) : ℚ := (v - mn) * 360 / (-mn + mx)

/-- Line 299: the inverse mapping used by the commit,
`(-self.min + self.max) * angle / 360. + self.min`. -/
def angle_to_value (mn mx a : ℚ) : ℚ := (-mn + mx) * a / 360 + mn

/-- Assignment `self.value = v` on the kivy `NumericProperty`: the bound
`_value` callback (which recomputes `_angle`, line 253-254) is dispatched
only when the stored value actually changes. -/
def set_value (k : Knob) (v : ℚ) : Knob :=
  if v = k.value then k
  else { k with value := v, _angle := value_to_angle k.min k.max v }

/-- Line 279: `360. / ((self.max - self.min + 1) / self.step)`. -/
def angle_step (mn mx st : ℚ) : ℚ := 360 / ((mx - mn + 1) / st)

/-- Python runtime error raised inside the `try` block of `update_angle`. -/
inductive PyErr
  | zeroDivision
deriving DecidableEq

/-- Python float division `a / b`, which raises `ZeroDivisionError` exactly
when `b == 0`. -/
noncomputable def pydiv (a b : ℝ) : Except PyErr ℝ :=
  if b = 0 then .error .zeroDivision else .ok (a / b)

/-- Lines 281-284: clockwise quadrant selection from the pointer offset. -/
noncomputable def quadrant (rx ry : ℝ) : ℕ :=
  if 0 ≤ ry then (if 0 ≤ rx then 1 else 4) else (if rx ≤ 0 then 3 else 2)

/-- Lines 286-291, the `try` block:
`angle = math.atan(rx / ry) * 180. / 3.141592` followed by the quadrant
adjustments.  The division raises when `ry = 0`; nothing after it can
raise. -/
noncomputable def try_angle (rx ry : ℝ) (q : ℕ) : Except PyErr ℝ :=
  match pydiv rx ry with
  | .error e => .error e
  | .ok t =>
      let a := Real.arctan t * 180 / 3.141592
      .ok (if q = 2 ∨ q = 3 then 180 + a
           else if q = 4 then 360 + a else a)

/-- Lines 286-293: the resolved raw angle.  The bare `except` handler
(`angle = 90 if quadrant <= 2 else 270`) supplies the result when the
division raised. -/
noncomputable def resolve_raw (rx ry : ℝ) : ℝ :=
  match try_angle rx ry (quadrant rx ry) with
  | .ok a => a
  | .error _ => if quadrant rx ry ≤ 2 then 90 else 270

/-- Lines 296-297:
`int(self._angle_step * round(float(angle) / self._angle_step))`. -/
noncomputable def quantize (s : ℚ) (raw : ℝ) : ℤ :=
  int_trunc ((s : ℝ) * ((pyRound (raw / (s : ℝ))) : ℝ))

/-- Lines 275-299 from the `_angle_step` assignment on: guard, quantize and
commit, taking the already-resolved raw angle.  The structure mirrors
`if not(being_pressed and abs(angle - self._angle) > 90): ...`. -/
noncomputable def commit_angle (k : Knob) (raw : ℝ) (being_pressed : Bool) : Knob :=
  if being_pressed = true ∧ 90 < |raw - (k._angle : ℝ)| then
    { k with _angle_step := angle_step k.min k.max k.step }
  else if ((quantize (angle_step k.min k.max k.step) raw : ℤ) : ℚ) = k._angle then
    { k with _angle_step := angle_step k.min k.max k.step }
  else
    set_value { k with _angle_step := angle_step k.min k.max k.step }
      (angle_to_value k.min k.max ((quantize (angle_step k.min k.max k.step) raw : ℤ) : ℚ))

/-- Lines 275-299: `update_angle(self, touch, being_pressed=False)` with
`rx, ry = posx - cx, posy - cy`. -/
noncomputable def update_angle (k : Knob) (posx posy cx cy : ℝ) (being_pressed : Bool) : Knob :=
  commit_angle k (resolve_raw (posx - cx) (posy - cy)) being_pressed

/-- Lines 267-269: a press calls `update_angle(touch)` with the default
`being_pressed=False` (the point is assumed inside the widget, as the
claims require). -/
noncomputable def on_touch_down (k : Knob) (posx posy cx cy : ℝ) : Knob :=
  update_angle k posx posy cx cy false

/-- Lines 271-273: a move calls `update_angle(touch, True)` (the point is
assumed inside the widget). -/
noncomputable def on_touch_move (k : Knob) (posx posy cx cy : ℝ) : Knob :=
  update_angle k posx posy cx cy true

/-- The defaults of the kivy property declarations (lines 110, 116, 128,
136, 236-237). -/
def knobDefault : Knob :=
  { min := 0, max := 100, step := 1, value := 0, _angle := 0, _angle_step := 0 }

/-- Configuration-time error: kivy's `BoundedNumericProperty` raises
`ValueError` when an assigned value violates its bound. -/
inductive PropertyError
  | belowBound
deriving DecidableEq

/-- Assignment to `step`, declared `BoundedNumericProperty(1, min=0)`
(line 136): the bound is inclusive, so only values `< 0` raise; `0` is
accepted. -/
def set_step (k : Knob) (s : ℚ) : Except PropertyError Knob :=
  if s < 0 then .error .belowBound else .ok { k with step := s }

/-- Construction with keyword arguments `min`, `max`, `step`, `value`:
`min` and `max` are plain `NumericProperty`s with no validation; `step` is
bound-checked; the `value -> _value` binding is registered in `__init__`
only after the keyword arguments have been applied, so `_angle` is not
recomputed here. -/
def mk_knob (mn mx st v : ℚ) : Except PropertyError Knob :=
  match set_step { knobDefault with min := mn, max := mx } st with
  | .error e => .error e
  | .ok k => .ok { k with value := v }

/-- Data-model invariant (spec section 3): `_angle` is the image of `value`
under the value-to-angle mapping. -/
def Knob.Consistent (k : Knob) : Prop :=
  k._angle = value_to_angle k.min k.max k.value

/-! ### Basic properties of the rounding and conversion helpers -/

lemma pyRound_mem (x : ℝ) : pyRound x = ⌊x⌋ ∨ pyRound x = ⌊x⌋ + 1 := by
  unfold pyRound
  split_ifs <;> simp

lemma pyRound_le_add_half (x : ℝ) : (pyRound x : ℝ) ≤ x + 1 / 2 := by
  have h1 := Int.floor_le x
  have h2 := Int.lt_floor_add_one x
  unfold pyRound
  split_ifs with ha hb hc <;> push_cast <;> linarith

lemma sub_half_le_pyRound (x : ℝ) : x - 1 / 2 ≤ (pyRound x : ℝ) := by
  have h1 := Int.floor_le x
  have h2 := Int.lt_floor_add_one x
  unfold pyRound
  split_ifs with ha hb hc <;> push_cast <;> linarith

lemma pyRound_nonneg {x : ℝ} (hx : 0 ≤ x) : 0 ≤ pyRound x := by
  have h : (0 : ℤ) ≤ ⌊x⌋ := Int.floor_nonneg.mpr hx
  rcases pyRound_mem x with h' | h' <;> omega

lemma abs_sub_pyRound_le_half (x : ℝ) : |x - (pyRound x : ℝ)| ≤ 1 / 2 := by
  have h1 := Int.floor_le x
  have h2 := Int.lt_floor_add_one x
  unfold pyRound
  split_ifs with ha hb hc <;> push_cast <;> rw [abs_le] <;> constructor <;> linarith

lemma pyRound_nearest (x : ℝ) (j : ℤ) : |x - (pyRound x : ℝ)| ≤ |x - (j : ℝ)| := by
  by_cases hj : j = pyRound x
  · subst hj; exact le_refl _
  · have hne : pyRound x - j ≠ 0 := sub_ne_zero.mpr fun h => hj h.symm
    have h1 : (1 : ℝ) ≤ |(pyRound x : ℝ) - (j : ℝ)| := by
      have := Int.one_le_abs hne
      calc (1 : ℝ) ≤ ((|pyRound x - j| : ℤ) : ℝ) := by exact_mod_cast this
        _ = |(pyRound x : ℝ) - (j : ℝ)| := by push_cast; ring_nf
    have h2 := abs_sub_pyRound_le_half x
    have h3 : |(pyRound x : ℝ) - (j : ℝ)| ≤ |(pyRound x : ℝ) - x| + |x - (j : ℝ)| :=
      abs_sub_le _ x _
    have h4 : |(pyRound x : ℝ) - x| = |x - (pyRound x : ℝ)| := abs_sub_comm _ _
    linarith

lemma a2v_v2a {mn mx : ℚ} (h : mn ≠ mx) (v : ℚ) :
    angle_to_value mn mx (value_to_angle mn mx v) = v := by
  have h' : -mn + mx ≠ 0 := fun hc => h (by linarith)
  unfold angle_to_value value_to_angle
  field_simp

lemma v2a_a2v {mn mx : ℚ} (h : mn ≠ mx) (a : ℚ) :
    value_to_angle mn mx (angle_to_value mn mx a) = a := by
  have h' : -mn + mx ≠ 0 := fun hc => h (by linarith)
  unfold angle_to_value value_to_angle
  field_simp
  ring

/-! ### Evaluation and range of the pointer-angle resolver -/

lemma try_angle_ry_zero (rx : ℝ) (q : ℕ) : try_angle rx 0 q = .error .zeroDivision := by
  unfold try_angle pydiv
  simp

lemma try_angle_ok {ry : ℝ} (h : ry ≠ 0) (rx : ℝ) (q : ℕ) :
    try_angle rx ry q =
      .ok (if q = 2 ∨ q = 3 then 180 + Real.arctan (rx / ry) * 180 / 3.141592
           else if q = 4 then 360 + Real.arctan (rx / ry) * 180 / 3.141592
           else Real.arctan (rx / ry) * 180 / 3.141592) := by
  unfold try_angle pydiv
  simp [h]

lemma resolve_raw_ry_zero (rx : ℝ) :
    resolve_raw rx 0 = if quadrant rx 0 ≤ 2 then 90 else 270 := by
  unfold resolve_raw
  rw [try_angle_ry_zero]

lemma resolve_raw_ok {ry : ℝ} (h : ry ≠ 0) (rx : ℝ) :
    resolve_raw rx ry =
      (if quadrant rx ry = 2 ∨ quadrant rx ry = 3 then
        180 + Real.arctan (rx / ry) * 180 / 3.141592
       else if quadrant rx ry = 4 then 360 + Real.arctan (rx / ry) * 180 / 3.141592
       else Real.arctan (rx / ry) * 180 / 3.141592) := by
  unfold resolve_raw
  rw [try_angle_ok h]

lemma arctan_deg_lt (t : ℝ) : Real.arctan t * 180 / 3.141592 < 180 := by
  have h1 := Real.arctan_lt_pi_div_two t
  have h2 := Real.pi_lt_d2
  rw [div_lt_iff₀ (by norm_num : (0 : ℝ) < 3.141592)]
  nlinarith

lemma neg_lt_arctan_deg (t : ℝ) : -180 < Real.arctan t * 180 / 3.141592 := by
  have h1 := Real.neg_pi_div_two_lt_arctan t
  have h2 := Real.pi_lt_d2
  rw [lt_div_iff₀ (by norm_num : (0 : ℝ) < 3.141592)]
  nlinarith

lemma arctan_deg_nonneg {t : ℝ} (h : 0 ≤ t) : 0 ≤ Real.arctan t * 180 / 3.141592 := by
  have h0 : 0 ≤ Real.arctan t := by
    rw [← Real.arctan_zero]
    exact Real.arctan_strictMono.monotone h
  exact div_nonneg (mul_nonneg h0 (by norm_num)) (by norm_num)

lemma arctan_deg_neg {t : ℝ} (h : t < 0) : Real.arctan t * 180 / 3.141592 < 0 := by
  have h0 : Real.arctan t < 0 := by
    rw [← Real.arctan_zero]
    exact Real.arctan_strictMono h
  have hm : Real.arctan t * 180 < 0 := by nlinarith
  exact div_neg_of_neg_of_pos hm (by norm_num)

lemma resolve_raw_range (rx ry : ℝ) : 0 ≤ resolve_raw rx ry ∧ resolve_raw rx ry < 360 := by
  by_cases hry : ry = 0
  · subst hry
    rw [resolve_raw_ry_zero]
    split_ifs <;> norm_num
  · rw [resolve_raw_ok hry]
    have hlt := arctan_deg_lt (rx / ry)
    have hgt := neg_lt_arctan_deg (rx / ry)
    rcases lt_or_gt_of_ne hry with hneg | hpos
    · have hq : quadrant rx ry = if rx ≤ 0 then 3 else 2 := by
        unfold quadrant
        rw [if_neg (not_le.mpr hneg)]
      by_cases hrx : rx ≤ 0
      · have ht : 0 ≤ rx / ry := by
          rw [div_nonneg_iff]
          exact Or.inr ⟨hrx, hneg.le⟩
        have hnn := arctan_deg_nonneg ht
        rw [hq, if_pos hrx, if_pos (show (3 : ℕ) = 2 ∨ (3 : ℕ) = 3 by decide)]
        exact ⟨by linarith, by linarith⟩
      · have ht : rx / ry < 0 := div_neg_of_pos_of_neg (not_le.mp hrx) hneg
        have hn := arctan_deg_neg ht
        rw [hq, if_neg hrx, if_pos (show (2 : ℕ) = 2 ∨ (2 : ℕ) = 3 by decide)]
        exact ⟨by linarith, by linarith⟩
    · have hq : quadrant rx ry = if 0 ≤ rx then 1 else 4 := by
        unfold quadrant
        rw [if_pos hpos.le]
      by_cases hrx : 0 ≤ rx
      · have ht : 0 ≤ rx / ry := div_nonneg hrx hpos.le
        have hnn := arctan_deg_nonneg ht
        rw [hq, if_pos hrx, if_neg (show ¬((1 : ℕ) = 2 ∨ (1 : ℕ) = 3) by decide),
          if_neg (show ¬(1 : ℕ) = 4 by decide)]
        exact ⟨by linarith, by linarith⟩
      · have ht : rx / ry < 0 := div_neg_of_neg_of_pos (not_le.mp hrx) hpos
        have hn := arctan_deg_neg ht
        rw [hq, if_neg hrx, if_neg (show ¬((4 : ℕ) = 2 ∨ (4 : ℕ) = 3) by decide),
          if_pos (show (4 : ℕ) = 4 by decide)]
        exact ⟨by linarith, by linarith⟩

lemma quadrant_neg_one_zero : quadrant (-1) 0 = 4 := by
  unfold quadrant
  norm_num

lemma resolve_raw_neg_one_zero : resolve_raw (-1) 0 = 270 := by
  rw [resolve_raw_ry_zero, quadrant_neg_one_zero]
  norm_num

/-! ### Concrete evaluations used by the scenario theorems -/

lemma quadrant_one_zero : quadrant 1 0 = 1 := by
  unfold quadrant
  norm_num

lemma resolve_raw_one_zero : resolve_raw 1 0 = 90 := by
  rw [resolve_raw_ry_zero, quadrant_one_zero]
  norm_num

lemma int_trunc_intCast (n : ℤ) : int_trunc (n : ℝ) = n := by
  unfold int_trunc
  split_ifs <;> simp

lemma pyRound_three_halves : pyRound ((3 : ℝ) / 2) = 2 := by
  have hf : ⌊(3 : ℝ) / 2⌋ = 1 := by
    rw [Int.floor_eq_iff]
    constructor <;> norm_num
  unfold pyRound
  rw [hf]
  rw [if_neg (by push_cast; norm_num), if_neg (by push_cast; norm_num),
    if_neg (by decide : ¬Even (1 : ℤ))]
  decide

lemma pyRound_31_20 : pyRound ((31 : ℝ) / 20) = 2 := by
  have hf : ⌊(31 : ℝ) / 20⌋ = 1 := by
    rw [Int.floor_eq_iff]
    constructor <;> norm_num
  unfold pyRound
  rw [hf]
  rw [if_neg (by push_cast; norm_num), if_pos (by push_cast; norm_num)]
  decide

lemma quantize_180_270 : quantize 180 270 = 360 := by
  unfold quantize
  have h1 : (270 : ℝ) / ((180 : ℚ) : ℝ) = (3 : ℝ) / 2 := by
    push_cast
    norm_num
  rw [h1, pyRound_three_halves]
  have h2 : ((180 : ℚ) : ℝ) * ((2 : ℤ) : ℝ) = ((360 : ℤ) : ℝ) := by
    push_cast
    norm_num
  rw [h2, int_trunc_intCast]

lemma quantize_225_1395_4 : quantize 225 (1395 / 4) = 450 := by
  unfold quantize
  have h1 : (1395 : ℝ) / 4 / ((225 : ℚ) : ℝ) = (31 : ℝ) / 20 := by
    push_cast
    norm_num
  rw [h1, pyRound_31_20]
  have h2 : ((225 : ℚ) : ℝ) * ((2 : ℤ) : ℝ) = ((450 : ℤ) : ℝ) := by
    push_cast
    norm_num
  rw [h2, int_trunc_intCast]

lemma tan_x0_neg : Real.tan (-(3.141592 / 16)) < 0 := by
  have hpi := Real.pi_gt_three
  apply Real.tan_neg_of_neg_of_pi_div_two_lt
  · norm_num
  · nlinarith

lemma resolve_raw_tan_x0 : resolve_raw (Real.tan (-(3.141592 / 16))) 1 = 1395 / 4 := by
  have hpi := Real.pi_gt_three
  have hneg := tan_x0_neg
  have hq : quadrant (Real.tan (-(3.141592 / 16))) 1 = 4 := by
    unfold quadrant
    rw [if_pos (by norm_num : (0 : ℝ) ≤ 1), if_neg (not_le.mpr hneg)]
  rw [resolve_raw_ok (by norm_num : (1 : ℝ) ≠ 0), hq,
    if_neg (by decide : ¬((4 : ℕ) = 2 ∨ (4 : ℕ) = 3)), if_pos (by decide : (4 : ℕ) = 4),
    div_one, Real.arctan_tan (by nlinarith) (by nlinarith [Real.pi_pos])]
  norm_num

/-! ### Path lemmas for the commit stage -/

lemma commit_angle_rejected {k : Knob} {raw : ℝ} (h : 90 < |raw - (k._angle : ℝ)|) :
    commit_angle k raw true = { k with _angle_step := angle_step k.min k.max k.step } := by
  unfold commit_angle
  rw [if_pos ⟨rfl, h⟩]

lemma press_guard_false (k : Knob) (raw : ℝ) :
    ¬((false : Bool) = true ∧ 90 < |raw - (k._angle : ℝ)|) := by
  simp

lemma commit_angle_noop {k : Knob} {raw : ℝ} {bp : Bool}
    (hg : ¬(bp = true ∧ 90 < |raw - (k._angle : ℝ)|))
    (hq : ((quantize (angle_step k.min k.max k.step) raw : ℤ) : ℚ) = k._angle) :
    commit_angle k raw bp = { k with _angle_step := angle_step k.min k.max k.step } := by
  unfold commit_angle
  rw [if_neg hg, if_pos hq]

lemma commit_angle_commit {k : Knob} {raw : ℝ} {bp : Bool}
    (hg : ¬(bp = true ∧ 90 < |raw - (k._angle : ℝ)|))
    (hq : ((quantize (angle_step k.min k.max k.step) raw : ℤ) : ℚ) ≠ k._angle) :
    commit_angle k raw bp =
      set_value { k with _angle_step := angle_step k.min k.max k.step }
        (angle_to_value k.min k.max
          ((quantize (angle_step k.min k.max k.step) raw : ℤ) : ℚ)) := by
  unfold commit_angle
  rw [if_neg hg, if_neg hq]

/-! ### Claim theorems -/

/-- C5: for every configuration with `min < max` and `step > 0` and every
value `v` in `[min, max]`, converting `v` to an angle and back
(`angle_to_value` after `value_to_angle`) yields `v` again — in fact
exactly, hence in particular within one quantization step. -/
theorem round_trip_value_angle_value (mn mx st v : ℚ)
    (h1 : mn < mx) (h2 : 0 < st) (h3 : mn ≤ v) (h4 : v ≤ mx) :
    angle_to_value mn mx (value_to_angle mn mx v) = v ∧
    |angle_to_value mn mx (value_to_angle mn mx v) - v| ≤ st := by
  have he := a2v_v2a (ne_of_lt h1) v
  refine ⟨he, ?_⟩
  rw [he]
  simp only [sub_self, abs_zero]
  exact h2.le

theorem round_trip_value_angle_value_witness :
    (0 : ℚ) < 100 ∧ (0 : ℚ) < 1 ∧ (0 : ℚ) ≤ 50 ∧ (50 : ℚ) ≤ 100 ∧
    angle_to_value 0 100 (value_to_angle 0 100 50) = 50 :=
  ⟨by norm_num, by norm_num, by norm_num, by norm_num,
    (round_trip_value_angle_value 0 100 1 50 (by norm_num) (by norm_num)
      (by norm_num) (by norm_num)).1⟩

/-- C6 counterexample: the code's `value_to_angle` applies no modulo: at
`v = max` (here `min = 0`, `max = 100`, `v = 100`) it returns `360`, which
does not lie in `[0, 360)` as the claim asserts. -/
theorem value_to_angle_max_counterexample :
    value_to_angle 0 100 100 = 360 ∧ ¬(value_to_angle 0 100 100 < 360) := by
  constructor
  · unfold value_to_angle
    norm_num
  · unfold value_to_angle
    norm_num

/-- C6 amended: `value_to_angle v` is exactly `(v - min) * 360 / (max - min)`
with no modulo; it lies in `[0, 360)` when `min ≤ v < max`, and `v = max`
yields exactly `360`. -/
theorem value_to_angle_formula (mn mx v : ℚ) (h : mn < mx) :
    value_to_angle mn mx v = (v - mn) * 360 / (mx - mn) ∧
    (mn ≤ v → v < mx → 0 ≤ value_to_angle mn mx v ∧ value_to_angle mn mx v < 360) ∧
    value_to_angle mn mx mx = 360 := by
  have hne : mx - mn ≠ 0 := by
    intro hc
    linarith
  refine ⟨?_, ?_, ?_⟩
  · unfold value_to_angle
    ring_nf
  · intro hv1 hv2
    unfold value_to_angle
    constructor
    · apply div_nonneg
      · nlinarith
      · linarith
    · rw [div_lt_iff₀ (by linarith : (0 : ℚ) < -mn + mx)]
      nlinarith
  · unfold value_to_angle
    rw [div_eq_iff (by linarith : -mn + mx ≠ (0 : ℚ))]
    ring

theorem value_to_angle_formula_witness :
    (0 : ℚ) < 100 ∧ value_to_angle 0 100 100 = 360 :=
  ⟨by norm_num, (value_to_angle_formula 0 100 50 (by norm_num)).2.2⟩

/-- C7: with `min < max` and `step > 0`, the quantizer's step is
`360 / ((max - min + 1) / step)`, and `quantize` returns
`int(angleStep * round(raw / angleStep))`: the pre-truncation quantity
`angleStep * round(raw / angleStep)` is a nearest integer multiple of
`angleStep` to the raw angle (witnessed against every integer multiple),
then truncated toward zero to an integer number of degrees. -/
theorem quantize_formula_and_nearest (mn mx st : ℚ) (a : ℝ) (j : ℤ)
    (h1 : mn < mx) (h2 : 0 < st) :
    angle_step mn mx st = 360 / ((mx - mn + 1) / st) ∧
    quantize (angle_step mn mx st) a =
      int_trunc (((angle_step mn mx st : ℚ) : ℝ) *
        ((pyRound (a / ((angle_step mn mx st : ℚ) : ℝ))) : ℝ)) ∧
    |a - ((angle_step mn mx st : ℚ) : ℝ) *
        ((pyRound (a / ((angle_step mn mx st : ℚ) : ℝ))) : ℝ)| ≤
      |a - ((angle_step mn mx st : ℚ) : ℝ) * (j : ℝ)| := by
  have hs : 0 < angle_step mn mx st := by
    unfold angle_step
    exact div_pos (by norm_num) (div_pos (by linarith) h2)
  have hsR : (0 : ℝ) < ((angle_step mn mx st : ℚ) : ℝ) := by exact_mod_cast hs
  refine ⟨rfl, rfl, ?_⟩
  set s : ℝ := ((angle_step mn mx st : ℚ) : ℝ) with hsdef
  have key : ∀ z : ℤ, s * (a / s - (z : ℝ)) = a - s * (z : ℝ) := by
    intro z
    field_simp
  calc |a - s * ((pyRound (a / s)) : ℝ)|
      = |s * (a / s - ((pyRound (a / s)) : ℝ))| := by rw [key]
    _ = s * |a / s - ((pyRound (a / s)) : ℝ)| := by rw [abs_mul, abs_of_pos hsR]
    _ ≤ s * |a / s - (j : ℝ)| := mul_le_mul_of_nonneg_left (pyRound_nearest (a / s) j) hsR.le
    _ = |s * (a / s - (j : ℝ))| := by rw [abs_mul, abs_of_pos hsR]
    _ = |a - s * (j : ℝ)| := by rw [key]

theorem quantize_formula_and_nearest_witness :
    (0 : ℚ) < 100 ∧ (0 : ℚ) < 1 ∧
    |(10 : ℝ) - ((angle_step 0 100 1 : ℚ) : ℝ) *
        ((pyRound ((10 : ℝ) / ((angle_step 0 100 1 : ℚ) : ℝ))) : ℝ)| ≤
      |(10 : ℝ) - ((angle_step 0 100 1 : ℚ) : ℝ) * ((3 : ℤ) : ℝ)| :=
  ⟨by norm_num, by norm_num,
    (quantize_formula_and_nearest 0 100 1 10 3 (by norm_num) (by norm_num)).2.2⟩

/-- C9 counterexample: for the pointer offset `rx = 1, ry = 0` the `try`
block does attempt the division `rx / ry` — it raises `ZeroDivisionError`
— and the resulting angle `90` comes from the bare `except` handler, so
the runtime arithmetic exception is exactly the control flow; there is no
explicit `ry == 0` branch that avoids the division. -/
theorem ry_zero_exception_counterexample :
    pydiv 1 0 = Except.error PyErr.zeroDivision ∧
    try_angle 1 0 (quadrant 1 0) = Except.error PyErr.zeroDivision ∧
    resolve_raw 1 0 = 90 := by
  refine ⟨?_, try_angle_ry_zero 1 (quadrant 1 0), resolve_raw_one_zero⟩
  unfold pydiv
  rw [if_pos rfl]

/-- C9 amended: when `ry = 0` the division `rx / ry` is attempted and
raises (the `try` block returns the zero-division error), and the bare
`except` handler yields `90` when the quadrant is at most 2 (quadrant 1 is
the only one reachable with `ry = 0`) and `270` otherwise; the exception,
not an explicit `ry == 0` branch, is the control flow. -/
theorem ry_zero_exception_flow (rx : ℝ) :
    try_angle rx 0 (quadrant rx 0) = Except.error PyErr.zeroDivision ∧
    resolve_raw rx 0 = (if quadrant rx 0 ≤ 2 then 90 else 270) :=
  ⟨try_angle_ry_zero rx (quadrant rx 0), resolve_raw_ry_zero rx⟩

/-- C10: every touch event (press or move) assigns `_angle_step` from
`(min, max, step)`; and when the event is a dragging move whose raw
candidate is rejected by the guard, or an event whose quantized angle
equals the current angle, `value` and `_angle` are left unchanged while
`_angle_step` is still reassigned. -/
theorem angle_step_always_recomputed (k : Knob) (posx posy cx cy : ℝ) (bp : Bool) :
    (update_angle k posx posy cx cy bp)._angle_step = angle_step k.min k.max k.step ∧
    (((bp = true ∧ 90 < |resolve_raw (posx - cx) (posy - cy) - (k._angle : ℝ)|) ∨
        ((quantize (angle_step k.min k.max k.step)
          (resolve_raw (posx - cx) (posy - cy)) : ℤ) : ℚ) = k._angle) →
      (update_angle k posx posy cx cy bp).value = k.value ∧
      (update_angle k posx posy cx cy bp)._angle = k._angle) := by
  unfold update_angle commit_angle
  set raw := resolve_raw (posx - cx) (posy - cy)
  by_cases hg : bp = true ∧ 90 < |raw - (k._angle : ℝ)|
  · rw [if_pos hg]
    exact ⟨rfl, fun _ => ⟨rfl, rfl⟩⟩
  · rw [if_neg hg]
    by_cases hq : ((quantize (angle_step k.min k.max k.step) raw : ℤ) : ℚ) = k._angle
    · rw [if_pos hq]
      exact ⟨rfl, fun _ => ⟨rfl, rfl⟩⟩
    · rw [if_neg hq]
      constructor
      · unfold set_value
        split_ifs <;> rfl
      · intro h
        rcases h with h | h
        · exact absurd h hg
        · exact absurd h hq

theorem angle_step_always_recomputed_witness :
    (update_angle ⟨0, 35, 1, 5, 50, 0⟩ (-1) 0 0 0 true)._angle_step = angle_step 0 35 1 ∧
    (update_angle ⟨0, 35, 1, 5, 50, 0⟩ (-1) 0 0 0 true).value = 5 ∧
    (update_angle ⟨0, 35, 1, 5, 50, 0⟩ (-1) 0 0 0 true)._angle = 50 := by
  have h270 : (90 : ℝ) < |resolve_raw ((-1 : ℝ) - 0) ((0 : ℝ) - 0) - ((50 : ℚ) : ℝ)| := by
    norm_num [resolve_raw_neg_one_zero]
  obtain ⟨ha, hb⟩ := angle_step_always_recomputed ⟨0, 35, 1, 5, 50, 0⟩ (-1) 0 0 0 true
  exact ⟨ha, (hb (Or.inl ⟨rfl, h270⟩)).1, (hb (Or.inl ⟨rfl, h270⟩)).2⟩

lemma commit_angle_commit_fields {k : Knob} {raw : ℝ} {bp : Bool}
    (hg : ¬(bp = true ∧ 90 < |raw - (k._angle : ℝ)|))
    (hq : ((quantize (angle_step k.min k.max k.step) raw : ℤ) : ℚ) ≠ k._angle)
    (hv : angle_to_value k.min k.max
        ((quantize (angle_step k.min k.max k.step) raw : ℤ) : ℚ) ≠ k.value) :
    (commit_angle k raw bp).value =
      angle_to_value k.min k.max
        ((quantize (angle_step k.min k.max k.step) raw : ℤ) : ℚ) ∧
    (commit_angle k raw bp)._angle =
      value_to_angle k.min k.max
        (angle_to_value k.min k.max
          ((quantize (angle_step k.min k.max k.step) raw : ℤ) : ℚ)) := by
  rw [commit_angle_commit hg hq]
  unfold set_value
  split_ifs with h
  · exact absurd h hv
  · exact ⟨rfl, rfl⟩

/-- C2: on a press event (`on_touch_down`, the Pressed phase) on a
consistent state with a non-degenerate range, the angle is set to the
quantized resolved angle and the value is recomputed from it,
unconditionally — whatever the distance between the resolved angle and
the current angle, the drag-distance filter is never applied. -/
theorem press_always_accepts (k : Knob) (posx posy cx cy : ℝ)
    (hmn : k.max ≠ k.min) (hc : k.Consistent) :
    (on_touch_down k posx posy cx cy)._angle =
      ((quantize (angle_step k.min k.max k.step)
        (resolve_raw (posx - cx) (posy - cy)) : ℤ) : ℚ) ∧
    (on_touch_down k posx posy cx cy).value =
      angle_to_value k.min k.max
        ((quantize (angle_step k.min k.max k.step)
          (resolve_raw (posx - cx) (posy - cy)) : ℤ) : ℚ) := by
  have hmn' : k.min ≠ k.max := fun h => hmn h.symm
  unfold Knob.Consistent at hc
  have hval : angle_to_value k.min k.max k._angle = k.value := by
    rw [hc]
    exact a2v_v2a hmn' k.value
  unfold on_touch_down update_angle
  set raw := resolve_raw (posx - cx) (posy - cy) with hraw
  by_cases hq : ((quantize (angle_step k.min k.max k.step) raw : ℤ) : ℚ) = k._angle
  · rw [commit_angle_noop (press_guard_false k raw) hq]
    refine ⟨hq.symm, ?_⟩
    rw [hq, hval]
  · have hv : angle_to_value k.min k.max
        ((quantize (angle_step k.min k.max k.step) raw : ℤ) : ℚ) ≠ k.value := by
      intro hcontra
      apply hq
      have h1 := congrArg (value_to_angle k.min k.max) hcontra
      rw [v2a_a2v hmn', ← hc] at h1
      exact h1
    obtain ⟨hv1, hv2⟩ := commit_angle_commit_fields (press_guard_false k raw) hq hv
    refine ⟨?_, hv1⟩
    rw [hv2, v2a_a2v hmn']

theorem press_always_accepts_witness :
    (100 : ℚ) ≠ 0 ∧
    (on_touch_down knobDefault 3 4 0 0)._angle =
      ((quantize (angle_step 0 100 1) (resolve_raw ((3 : ℝ) - 0) ((4 : ℝ) - 0)) : ℤ) : ℚ) := by
  have hc : knobDefault.Consistent := by
    unfold Knob.Consistent knobDefault value_to_angle
    norm_num
  have h := press_always_accepts knobDefault 3 4 0 0 (by unfold knobDefault; norm_num) hc
  exact ⟨by norm_num, h.1⟩

/-- C1 counterexample: configuration `min = 0`, `max = 1`, `step = 1`
(angle step 180), current angle 180 (value 1/2).  The dragging move at
offset `(-1, 0)` resolves to raw angle 270, which passes the guard
(`|270 - 180| = 90 ≤ 90`) and then quantizes to 360 — a candidate whose
numeric distance from the current angle is `180 > 90` — yet the event is
accepted and both the angle and the value change, contradicting the claim
that such a candidate is discarded with the state left unchanged. -/
theorem drag_guard_quantized_counterexample :
    ((quantize (angle_step 0 1 1)
      (resolve_raw ((-1 : ℝ) - 0) ((0 : ℝ) - 0)) : ℤ) : ℚ) = 360 ∧
    (90 : ℚ) < |360 - 180| ∧
    (on_touch_move ⟨0, 1, 1, 1 / 2, 180, 180⟩ (-1) 0 0 0).value = 1 ∧
    (on_touch_move ⟨0, 1, 1, 1 / 2, 180, 180⟩ (-1) 0 0 0)._angle = 360 := by
  have hraw : resolve_raw ((-1 : ℝ) - 0) ((0 : ℝ) - 0) = 270 := by
    norm_num [resolve_raw_neg_one_zero]
  have hstep : angle_step 0 1 1 = 180 := by
    unfold angle_step
    norm_num
  have hq : quantize (angle_step 0 1 1) (resolve_raw ((-1 : ℝ) - 0) ((0 : ℝ) - 0)) = 360 := by
    rw [hraw, hstep, quantize_180_270]
  refine ⟨by rw [hq]; norm_num, by norm_num, ?_⟩
  unfold on_touch_move update_angle
  have hg : ¬((true : Bool) = true ∧
      90 < |resolve_raw ((-1 : ℝ) - 0) ((0 : ℝ) - 0) -
        ((Knob._angle ⟨0, 1, 1, 1 / 2, 180, 180⟩ : ℚ) : ℝ)|) := by
    rw [hraw]
    push_cast
    norm_num
  have hq' : ((quantize (angle_step 0 1 1)
      (resolve_raw ((-1 : ℝ) - 0) ((0 : ℝ) - 0)) : ℤ) : ℚ) ≠
      Knob._angle ⟨0, 1, 1, 1 / 2, 180, 180⟩ := by
    rw [hq]
    norm_num
  have hv : angle_to_value 0 1
      ((quantize (angle_step 0 1 1)
        (resolve_raw ((-1 : ℝ) - 0) ((0 : ℝ) - 0)) : ℤ) : ℚ) ≠
      Knob.value ⟨0, 1, 1, 1 / 2, 180, 180⟩ := by
    rw [hq]
    unfold angle_to_value
    norm_num
  obtain ⟨hv1, hv2⟩ := commit_angle_commit_fields hg hq' hv
  rw [hv1, hv2, hq]
  unfold angle_to_value value_to_angle
  norm_num

/-- C1 amended: during the Dragging phase the guard compares the RAW
resolved angle (before quantization) with the current angle: whenever
`|rawAngle - currentAngle| > 90` the move is discarded and both the value
and the angle stay unchanged for that event.  (The quantized candidate, in
contrast, may differ from the current angle by more than 90 and still be
committed, as the counterexample shows.) -/
theorem drag_reject_uses_raw_angle (k : Knob) (posx posy cx cy : ℝ)
    (h : 90 < |resolve_raw (posx - cx) (posy - cy) - (k._angle : ℝ)|) :
    (on_touch_move k posx posy cx cy).value = k.value ∧
    (on_touch_move k posx posy cx cy)._angle = k._angle := by
  unfold on_touch_move update_angle
  rw [commit_angle_rejected h]
  exact ⟨rfl, rfl⟩

theorem drag_reject_uses_raw_angle_witness :
    (90 : ℝ) < |resolve_raw ((-1 : ℝ) - 0) ((0 : ℝ) - 0) - ((50 : ℚ) : ℝ)| ∧
    (on_touch_move ⟨0, 35, 1, 5, 50, 0⟩ (-1) 0 0 0).value = 5 ∧
    (on_touch_move ⟨0, 35, 1, 5, 50, 0⟩ (-1) 0 0 0)._angle = 50 := by
  have h : (90 : ℝ) < |resolve_raw ((-1 : ℝ) - 0) ((0 : ℝ) - 0) - ((50 : ℚ) : ℝ)| := by
    norm_num [resolve_raw_neg_one_zero]
  exact ⟨h, (drag_reject_uses_raw_angle ⟨0, 35, 1, 5, 50, 0⟩ (-1) 0 0 0 h).1,
    (drag_reject_uses_raw_angle ⟨0, 35, 1, 5, 50, 0⟩ (-1) 0 0 0 h).2⟩

/-- C8 counterexample: constructing with `min = max = 50` succeeds — no
degenerate-range error is raised — and constructing with `step = 0`
succeeds as well (the `BoundedNumericProperty` bound `min=0` is
inclusive), so neither configuration fails synchronously as claimed. -/
theorem config_accepts_degenerate_counterexample :
    mk_knob 50 50 1 0 = Except.ok ⟨50, 50, 1, 0, 0, 0⟩ ∧
    mk_knob 0 100 0 0 = Except.ok ⟨0, 100, 0, 0, 0, 0⟩ := by
  constructor <;> rfl

/-- C8 amended: the only synchronous configuration-time failure is a
negative `step`, rejected by the kivy bound; `max == min` and `step = 0`
are both accepted at construction time (their division-by-zero failures
can only surface later, at value-change or gesture time). -/
theorem config_validation (k : Knob) (s : ℚ) (hs : s < 0) :
    set_step k s = Except.error PropertyError.belowBound ∧
    mk_knob 50 50 1 0 = Except.ok ⟨50, 50, 1, 0, 0, 0⟩ ∧
    mk_knob 0 100 0 0 = Except.ok ⟨0, 100, 0, 0, 0, 0⟩ := by
  refine ⟨?_, rfl, rfl⟩
  unfold set_step
  rw [if_pos hs]

theorem config_validation_witness :
    (-1 : ℚ) < 0 ∧ set_step knobDefault (-1) = Except.error PropertyError.belowBound :=
  ⟨by norm_num, (config_validation knobDefault (-1) (by norm_num)).1⟩

/-- C4 counterexample: at offset `(1, 1)` the resolver returns
`arctan(1) * 180 / 3.141592`, which is NOT `atan(rx/ry) * 180 / π`
(`= 45`): the code divides by the literal `3.141592`, not by `π`. -/
theorem resolver_pi_counterexample :
    resolve_raw 1 1 ≠ Real.arctan (1 / 1) * 180 / Real.pi := by
  have hq : quadrant 1 1 = 1 := by
    unfold quadrant
    norm_num
  rw [resolve_raw_ok (by norm_num : (1 : ℝ) ≠ 0), hq,
    if_neg (by decide : ¬((1 : ℕ) = 2 ∨ (1 : ℕ) = 3)), if_neg (by decide : ¬(1 : ℕ) = 4)]
  have h1 : (1 : ℝ) / 1 = 1 := by norm_num
  rw [h1, Real.arctan_one]
  have hpi := Real.pi_gt_d6
  have hpipos := Real.pi_pos
  have hr : Real.pi / 4 * 180 / Real.pi = 45 := by
    rw [div_eq_iff hpipos.ne']
    ring
  rw [hr]
  apply ne_of_gt
  rw [lt_div_iff₀ (by norm_num : (0 : ℝ) < 3.141592)]
  nlinarith

/-- C4 amended: for every pointer offset with `ry ≠ 0` the resolved raw
angle equals `arctan(rx/ry) * 180 / 3.141592` (the code's literal
constant, approximately `180/π`), plus 180 in quadrants 2 and 3 and plus
360 in quadrant 4, and the result always lies in `[0, 360)`. -/
theorem resolver_formula_and_range (rx ry : ℝ) (h : ry ≠ 0) :
    resolve_raw rx ry =
      (if quadrant rx ry = 2 ∨ quadrant rx ry = 3 then
        180 + Real.arctan (rx / ry) * 180 / 3.141592
       else if quadrant rx ry = 4 then 360 + Real.arctan (rx / ry) * 180 / 3.141592
       else Real.arctan (rx / ry) * 180 / 3.141592) ∧
    0 ≤ resolve_raw rx ry ∧ resolve_raw rx ry < 360 :=
  ⟨resolve_raw_ok h rx, resolve_raw_range rx ry⟩

theorem resolver_formula_and_range_witness :
    (1 : ℝ) ≠ 0 ∧ 0 ≤ resolve_raw 1 1 ∧ resolve_raw 1 1 < 360 :=
  ⟨one_ne_zero, (resolver_formula_and_range 1 1 one_ne_zero).2⟩

/-! ### Bounds on the quantized angle and the committed value -/

lemma quantize_nonneg {s : ℚ} {raw : ℝ} (hs : 0 < s) (hraw : 0 ≤ raw) :
    0 ≤ quantize s raw := by
  have hsR : (0 : ℝ) < (s : ℝ) := by exact_mod_cast hs
  have hx : 0 ≤ raw / (s : ℝ) := div_nonneg hraw hsR.le
  have hn : 0 ≤ pyRound (raw / (s : ℝ)) := pyRound_nonneg hx
  have hprod : (0 : ℝ) ≤ (s : ℝ) * ((pyRound (raw / (s : ℝ))) : ℝ) :=
    mul_nonneg hsR.le (by exact_mod_cast hn)
  unfold quantize int_trunc
  rw [if_pos hprod]
  exact Int.floor_nonneg.mpr hprod

lemma quantize_le {s : ℚ} {raw : ℝ} (hs : 0 < s) (hraw0 : 0 ≤ raw) (hraw1 : raw < 360) :
    ((quantize s raw : ℤ) : ℚ) ≤ 360 + s / 2 := by
  have hsR : (0 : ℝ) < (s : ℝ) := by exact_mod_cast hs
  have hx : 0 ≤ raw / (s : ℝ) := div_nonneg hraw0 hsR.le
  have hn := pyRound_le_add_half (raw / (s : ℝ))
  have hprod : (s : ℝ) * ((pyRound (raw / (s : ℝ))) : ℝ) ≤ raw + (s : ℝ) / 2 := by
    calc (s : ℝ) * ((pyRound (raw / (s : ℝ))) : ℝ)
        ≤ (s : ℝ) * (raw / (s : ℝ) + 1 / 2) := mul_le_mul_of_nonneg_left hn hsR.le
      _ = raw + (s : ℝ) / 2 := by field_simp; ring
  have hnn : (0 : ℝ) ≤ (s : ℝ) * ((pyRound (raw / (s : ℝ))) : ℝ) :=
    mul_nonneg hsR.le (by exact_mod_cast pyRound_nonneg hx)
  unfold quantize int_trunc
  rw [if_pos hnn]
  have hfloor := Int.floor_le ((s : ℝ) * ((pyRound (raw / (s : ℝ))) : ℝ))
  have hR : ((⌊(s : ℝ) * ((pyRound (raw / (s : ℝ))) : ℝ)⌋ : ℤ) : ℝ) ≤ 360 + (s : ℝ) / 2 := by
    linarith
  exact_mod_cast hR

lemma a2v_bounds {mn mx s a : ℚ} (h1 : mn < mx) (hs : 0 < s)
    (ha0 : 0 ≤ a) (ha1 : a ≤ 360 + s / 2) :
    mn ≤ angle_to_value mn mx a ∧
    angle_to_value mn mx a ≤ mx + (mx - mn) * s / 720 := by
  unfold angle_to_value
  constructor
  · have h : 0 ≤ (-mn + mx) * a / 360 :=
      div_nonneg (mul_nonneg (by linarith) ha0) (by norm_num)
    linarith
  · have key : (-mn + mx) * a ≤ (-mn + mx) * (360 + s / 2) :=
      mul_le_mul_of_nonneg_left ha1 (by linarith)
    nlinarith [key]

/-- C3 counterexample: configuration `min = 0`, `max = 7`, `step = 5`
(angle step 225) with initial value 0 and angle 0 (consistent).  The press
at offset `(tan(-3.141592/16), 1)` resolves to raw angle exactly
`348.75`, quantizes to `450`, is accepted, and commits `value = 35/4`,
which exceeds `max = 7`, and `angle = 450`, which is not below 360 — so
the range invariant `min ≤ value ≤ max ∧ 0 ≤ angle < 360` fails even
though `min < max`, `step > 0` and the candidate was accepted. -/
theorem gesture_range_counterexample :
    (0 : ℚ) < 7 ∧ (0 : ℚ) < 5 ∧
    Knob.Consistent ⟨0, 7, 5, 0, 0, 0⟩ ∧
    (on_touch_down ⟨0, 7, 5, 0, 0, 0⟩ (Real.tan (-(3.141592 / 16))) 1 0 0).value = 35 / 4 ∧
    ¬((on_touch_down ⟨0, 7, 5, 0, 0, 0⟩ (Real.tan (-(3.141592 / 16))) 1 0 0).value ≤ 7) ∧
    (on_touch_down ⟨0, 7, 5, 0, 0, 0⟩ (Real.tan (-(3.141592 / 16))) 1 0 0)._angle = 450 ∧
    ¬((on_touch_down ⟨0, 7, 5, 0, 0, 0⟩ (Real.tan (-(3.141592 / 16))) 1 0 0)._angle < 360) := by
  have hraw : resolve_raw (Real.tan (-(3.141592 / 16)) - 0) ((1 : ℝ) - 0) = 1395 / 4 := by
    rw [sub_zero, sub_zero, resolve_raw_tan_x0]
  have hstep : angle_step 0 7 5 = 225 := by
    unfold angle_step
    norm_num
  have hq : quantize (angle_step 0 7 5)
      (resolve_raw (Real.tan (-(3.141592 / 16)) - 0) ((1 : ℝ) - 0)) = 450 := by
    rw [hraw, hstep, quantize_225_1395_4]
  have hcons : Knob.Consistent ⟨0, 7, 5, 0, 0, 0⟩ := by
    unfold Knob.Consistent value_to_angle
    norm_num
  refine ⟨by norm_num, by norm_num, hcons, ?_⟩
  unfold on_touch_down update_angle
  have hg : ¬((false : Bool) = true ∧
      90 < |resolve_raw (Real.tan (-(3.141592 / 16)) - 0) ((1 : ℝ) - 0) -
        ((Knob._angle ⟨0, 7, 5, 0, 0, 0⟩ : ℚ) : ℝ)|) := by
    simp
  have hq' : ((quantize (angle_step 0 7 5)
      (resolve_raw (Real.tan (-(3.141592 / 16)) - 0) ((1 : ℝ) - 0)) : ℤ) : ℚ) ≠
      Knob._angle ⟨0, 7, 5, 0, 0, 0⟩ := by
    rw [hq]
    norm_num
  have hv : angle_to_value 0 7
      ((quantize (angle_step 0 7 5)
        (resolve_raw (Real.tan (-(3.141592 / 16)) - 0) ((1 : ℝ) - 0)) : ℤ) : ℚ) ≠
      Knob.value ⟨0, 7, 5, 0, 0, 0⟩ := by
    rw [hq]
    unfold angle_to_value
    norm_num
  obtain ⟨hv1, hv2⟩ := commit_angle_commit_fields hg hq' hv
  rw [hv1, hv2, hq]
  unfold angle_to_value value_to_angle
  norm_num

/-- C3 amended: with `min < max`, `step > 0` and a consistent state whose
angle lies in `[0, 360 + angleStep/2]`, any gesture event keeps the value
in `[min, max + (max-min) * angleStep / 720]` and the angle in
`[0, 360 + angleStep/2]`.  The claimed tight bounds `value ≤ max` and
`angle < 360` do not hold: the committed quantized angle can round up to
`360 + angleStep/2` (360 and 450 are reachable, see the counterexample),
which pushes the value up to the corresponding excess over `max`. -/
theorem gesture_bounds (k : Knob) (posx posy cx cy : ℝ) (bp : Bool)
    (h1 : k.min < k.max) (h2 : 0 < k.step) (hc : k.Consistent)
    (ha0 : 0 ≤ k._angle)
    (ha1 : k._angle ≤ 360 + angle_step k.min k.max k.step / 2) :
    k.min ≤ (update_angle k posx posy cx cy bp).value ∧
    (update_angle k posx posy cx cy bp).value ≤
      k.max + (k.max - k.min) * angle_step k.min k.max k.step / 720 ∧
    0 ≤ (update_angle k posx posy cx cy bp)._angle ∧
    (update_angle k posx posy cx cy bp)._angle ≤
      360 + angle_step k.min k.max k.step / 2 := by
  have hmn' : k.min ≠ k.max := ne_of_lt h1
  have hs : 0 < angle_step k.min k.max k.step := by
    unfold angle_step
    exact div_pos (by norm_num) (div_pos (by linarith) h2)
  unfold Knob.Consistent at hc
  have hval : angle_to_value k.min k.max k._angle = k.value := by
    rw [hc]
    exact a2v_v2a hmn' k.value
  have hvb := a2v_bounds h1 hs ha0 ha1
  rw [hval] at hvb
  obtain ⟨hraw0, hraw1⟩ := resolve_raw_range (posx - cx) (posy - cy)
  unfold update_angle
  set raw := resolve_raw (posx - cx) (posy - cy) with hrawdef
  by_cases hg : bp = true ∧ 90 < |raw - (k._angle : ℝ)|
  · obtain ⟨hbp, habs⟩ := hg
    subst hbp
    rw [commit_angle_rejected habs]
    exact ⟨hvb.1, hvb.2, ha0, ha1⟩
  · by_cases hq : ((quantize (angle_step k.min k.max k.step) raw : ℤ) : ℚ) = k._angle
    · rw [commit_angle_noop hg hq]
      exact ⟨hvb.1, hvb.2, ha0, ha1⟩
    · have hq0 : (0 : ℚ) ≤ ((quantize (angle_step k.min k.max k.step) raw : ℤ) : ℚ) := by
        exact_mod_cast quantize_nonneg hs hraw0
      have hq1 := quantize_le hs hraw0 hraw1
      have hv : angle_to_value k.min k.max
          ((quantize (angle_step k.min k.max k.step) raw : ℤ) : ℚ) ≠ k.value := by
        intro hcontra
        apply hq
        have hcg := congrArg (value_to_angle k.min k.max) hcontra
        rw [v2a_a2v hmn', ← hc] at hcg
        exact hcg
      obtain ⟨hv1, hv2⟩ := commit_angle_commit_fields hg hq hv
      have hnb := a2v_bounds h1 hs hq0 hq1
      rw [hv1, hv2, v2a_a2v hmn']
      exact ⟨hnb.1, hnb.2, hq0, hq1⟩

theorem gesture_bounds_witness :
    (0 : ℚ) < 100 ∧ (0 : ℚ) < 1 ∧ Knob.Consistent knobDefault ∧
    (0 : ℚ) ≤ knobDefault._angle ∧
    knobDefault._angle ≤ 360 + angle_step 0 100 1 / 2 ∧
    (0 : ℚ) ≤ (update_angle knobDefault (-1) 0 0 0 true)._angle ∧
    (update_angle knobDefault (-1) 0 0 0 true)._angle ≤ 360 + angle_step 0 100 1 / 2 := by
  have hc : knobDefault.Consistent := by
    unfold Knob.Consistent knobDefault value_to_angle
    norm_num
  have ha1 : knobDefault._angle ≤ 360 + angle_step 0 100 1 / 2 := by
    unfold knobDefault angle_step
    norm_num
  have h := gesture_bounds knobDefault (-1) 0 0 0 true (by unfold knobDefault; norm_num)
    (by unfold knobDefault; norm_num) hc (by unfold knobDefault; norm_num) ha1
  exact ⟨by norm_num, by norm_num, hc, by unfold knobDefault; norm_num, ha1, h.2.2.1, h.2.2.2⟩
